import Mathlib

/-!
# DivineDestination: the booking intake endpoint of `server.js`

A shallow embedding of `src/server.js`: the `validateBooking` middleware, the
`POST /api/bookings` route handler, the global error handler, and the part of
Express dispatch that connects them.  JavaScript values are embedded together
with the coercions the source relies on (`!x`, `typeof`, the implicit `ToString`
of `Date.parse` and `RegExp.prototype.test`).
-/

namespace DivineDestination

/-! ## JavaScript values -/

/-- A JavaScript value as `express.json()` can put it into `req.body`, plus `undefined`
for an absent property.  A Number is identified by its canonical rendering
`Number::toString` (`"0"`, `"400"`, `"-1.5"`, `"1e+21"`, `"Infinity"`, `"NaN"`); the
rendering is injective on Numbers up to the sign of zero, which this program cannot
observe.  An object is the list of its own properties, the prototype being
`Object.prototype`; an array has its elements as its only own properties. -/
inductive JSValue where
  | undefined
  | null
  | bool (b : Bool)
  | number (repr : String)
  | string (s : String)
  | array (elems : List JSValue)
  | object (props : List (String × JSValue))

/-- The own properties of a plain object, as a list of key and value. -/
abbrev Props := List (String × JSValue)

/-- Property read `o.key` on a plain object: the own property when there is one, else
`undefined` (none of the keys read by this program is on `Object.prototype`). -/
def Props.get (o : Props) (key : String) : JSValue :=
  match o.find? (fun kv => kv.1 == key) with
  | some kv => kv.2
  | none => JSValue.undefined

/-- Whether the object has an own property `key`. -/
def Props.hasOwn (o : Props) (key : String) : Bool :=
  o.any (fun kv => kv.1 == key)

/-- The abstract operation `ToBoolean`: the falsy values are `undefined`, `null`, `false`,
zero, `NaN` and the empty string. -/
def toBoolean : JSValue → Bool
  | .undefined => false
  | .null => false
  | .bool b => b
  | .number r => !(r == "0" || r == "NaN")
  | .string s => !(s == "")
  | .array _ => true
  | .object _ => true

/-- The operator `typeof`. -/
def typeof : JSValue → String
  | .undefined => "undefined"
  | .null => "object"
  | .bool _ => "boolean"
  | .number _ => "number"
  | .string _ => "string"
  | .array _ => "object"
  | .object _ => "object"

/-- An error value as the handlers read it: its `status` and `message` properties
(`undefined` when absent). -/
structure JSError where
  status : JSValue
  message : JSValue

/-- The `TypeError` raised by `OrdinaryToPrimitive` when neither `toString` nor `valueOf`
yields a primitive (the message is the engine's, here V8's). -/
def typeErrorToPrimitive : JSError :=
  { status := JSValue.undefined,
    message := JSValue.string "Cannot convert object to primitive value" }

mutual
/-- The abstract operation `ToString`.  For an array it is `Array.prototype.join` with
the separator `","`.  For a plain object `OrdinaryToPrimitive` reads `toString`, then
`valueOf`: an own property `toString` holds a JSON value, never a function, so it is
skipped, and `valueOf` (own: not a function; inherited: returns the object itself)
yields no primitive, hence a `TypeError`; without an own `toString` the inherited
`Object.prototype.toString` answers `"[object Object]"`. -/
def toStringJS : JSValue → Except JSError String
  | .undefined => .ok "undefined"
  | .null => .ok "null"
  | .bool b => .ok (if b then "true" else "false")
  | .number r => .ok r
  | .string s => .ok s
  | .array elems => joinJS elems
  | .object props =>
      if Props.hasOwn props "toString" then .error typeErrorToPrimitive
      else .ok "[object Object]"
termination_by structural v => v

/-- The loop of `Array.prototype.join`: an `undefined` or `null` element gives the empty
string, any other goes through `ToString`; elements are taken left to right and the
first abrupt completion is returned. -/
def joinJS : List JSValue → Except JSError String
  | [] => .ok ""
  | x :: rest =>
      match (match x with
        | .undefined => Except.ok ""
        | .null => Except.ok ""
        | v => toStringJS v) with
      | .error e => .error e
      | .ok a =>
          match rest with
          | [] => .ok a
          | _ :: _ =>
              match joinJS rest with
              | .error e => .error e
              | .ok b => .ok (a ++ "," ++ b)
termination_by structural l => l
end

/-- The operator `||`: the left operand when it is truthy, else the right one. -/
def jsOr (a b : JSValue) : JSValue :=
  if toBoolean a then a else b

/-! ## Regular expressions -/

/-- The regular-expression constructs that `timeRegex` uses: a literal character, a
class given by a range or by its members, concatenation and alternation. -/
inductive Regex where
  | char (c : Char)
  | range (lo hi : Char)
  | oneOf (cs : List Char)
  | seq (a b : Regex)
  | alt (a b : Regex)

/-- Backtracking matcher: every input suffix that may remain after the expression
matched at the start of the input. -/
def Regex.run : Regex → List Char → List (List Char)
  | .char _, [] => []
  | .char c, x :: xs => if x == c then [xs] else []
  | .range _ _, [] => []
  | .range lo hi, x :: xs => if decide (lo ≤ x) && decide (x ≤ hi) then [xs] else []
  | .oneOf _, [] => []
  | .oneOf cs, x :: xs => if cs.contains x then [xs] else []
  | .seq a b, input => (a.run input).flatMap (fun rest => b.run rest)
  | .alt a b, input => a.run input ++ b.run input

/-- Matching of `^r$` without flags: the expression has to consume the whole input.  For
an expression over ASCII characters the code points of a string are matched exactly as
its UTF-16 code units are. -/
def Regex.matchesWhole (r : Regex) (s : String) : Bool :=
  (r.run s.data).any (fun rest => rest.isEmpty)

/-- The class `\d` (no `u` or `i` flag): the ASCII digits. -/
def Regex.digit : Regex := .range '0' '9'

/-- The source's `timeRegex = /^([01]\d|2[0-3]):([0-5]\d)$/`, anchors apart (they are
what `Regex.matchesWhole` implements). -/
def timeRegex : Regex :=
  .seq (.alt (.seq (.oneOf ['0', '1']) Regex.digit) (.seq (.char '2') (.range '0' '3')))
    (.seq (.char ':') (.seq (.range '0' '5') Regex.digit))

/-- The method `RegExp.prototype.test` for an anchored expression without flags: the
argument goes through `ToString` first. -/
def Regex.test (r : Regex) (v : JSValue) : Except JSError Bool :=
  match toStringJS v with
  | .error e => .error e
  | .ok s => .ok (r.matchesWhole s)

/-! ## The host's `Date.parse` -/

/-- Value of an ASCII digit. -/
def digitVal (c : Char) : Option Nat :=
  if decide ('0' ≤ c) && decide (c ≤ '9') then some (c.toNat - 48) else none

/-- Leap years of the proleptic Gregorian calendar. -/
def isLeapYear (y : Nat) : Bool :=
  (y % 4 == 0 && y % 100 != 0) || y % 400 == 0

/-- Number of days of month `m` (1 to 12) in year `y`; 0 for any other `m`. -/
def daysInMonth (y m : Nat) : Nat :=
  if m == 2 then (if isLeapYear y then 29 else 28)
  else if m == 4 || m == 6 || m == 9 || m == 11 then 30
  else if 1 ≤ m && m ≤ 12 then 31
  else 0

/-- The date-only form `YYYY-MM-DD` of the ECMAScript Date Time String Format, with a
month from 01 to 12 and a day that exists in that month: year, month and day. -/
def parseISODate (s : String) : Option (Nat × Nat × Nat) :=
  match s.data with
  | [y1, y2, y3, y4, s1, m1, m2, s2, d1, d2] =>
      match digitVal y1, digitVal y2, digitVal y3, digitVal y4,
            digitVal m1, digitVal m2, digitVal d1, digitVal d2 with
      | some a, some b, some c, some d, some e, some f, some g, some h =>
          let y := 1000 * a + 100 * b + 10 * c + d
          let m := 10 * e + f
          let day := 10 * g + h
          if s1 == '-' && s2 == '-' && decide (1 ≤ m) && decide (m ≤ 12)
              && decide (1 ≤ day) && decide (day ≤ daysInMonth y m)
          then some (y, m, day) else none
      | _, _, _, _, _, _, _, _ => none
  | _ => none

/-- Milliseconds from the epoch to midnight UTC of a civil date. -/
def utcMillis (ymd : Nat × Nat × Nat) : Int :=
  let y : Int := if ymd.2.1 ≤ 2 then (ymd.1 : Int) - 1 else ymd.1
  let era : Int := y / 400
  let yoe : Int := y - era * 400
  let mp : Int := if ymd.2.1 ≤ 2 then (ymd.2.1 : Int) + 9 else (ymd.2.1 : Int) - 3
  let doy : Int := (153 * mp + 2) / 5 + (ymd.2.2 : Int) - 1
  let doe : Int := yoe * 365 + yoe / 4 - yoe / 100 + doy
  (era * 146097 + doe - 719468) * 86400000

/-- The part of the JavaScript engine that ECMAScript leaves to the implementation:
`Date.parse` on a string, `none` standing for `NaN`.  Beyond the Date Time String Format
an engine may recognise whatever it likes; what every engine has to do is to recognise
the format itself, of which the date-only form is kept here. -/
structure Host where
  dateParse : String → Option Int
  dateParse_isoDate : ∀ s, (parseISODate s).isSome = true → (dateParse s).isSome = true

/-- A host without fallback heuristics: `Date.parse` recognises the date-only form
`YYYY-MM-DD` and nothing else. -/
def strictHost : Host where
  dateParse s := (parseISODate s).map utcMillis
  dateParse_isoDate := by
    intro s h
    simpa using h

/-- The function `isNaN` on the result of `Date.parse`. -/
def isNaN (t : Option Int) : Bool :=
  t.isNone

/-! ## The validator -/

/-- An HTTP response sent by `res.status(status).json(body)`. -/
structure Response where
  status : JSValue
  body : JSValue

/-- What a middleware does with a request: it answers, it calls `next()`, or it throws. -/
inductive Outcome where
  | responded (res : Response)
  | next
  | threw (err : JSError)

/-- The answer `res.status(400).json({ success: false, message })` of the validator. -/
def reject (message : String) : Response :=
  { status := JSValue.number "400",
    body := JSValue.object [("success", JSValue.bool false), ("message", JSValue.string message)] }

/-- The middleware `validateBooking` (server.js, lines 43-67) on the body of the request. -/
def validateBooking (host : Host) (body : Props) : Outcome :=
  let name := body.get "name"
  let email := body.get "email"
  let date := body.get "date"
  let time := body.get "time"
  let temple := body.get "temple"
  if !toBoolean name || !toBoolean email || !toBoolean date || !toBoolean time
      || !toBoolean temple then
    .responded (reject "All fields are required")
  else if typeof name != "string" || typeof email != "string" || typeof temple != "string" then
    .responded (reject "Name, email, and temple must be strings")
  else
    match toStringJS date with
    | .error e => .threw e
    | .ok d =>
        if isNaN (host.dateParse d) then
          .responded (reject "Date must be a valid ISO date string")
        else
          match timeRegex.test time with
          | .error e => .threw e
          | .ok matched =>
              if !matched then
                .responded (reject "Time must be in HH:MM 24-hour format")
              else .next

/-- The ASCII digit of a number below ten. -/
def digitChar (n : Nat) : Char :=
  Char.ofNat (48 + n)

/-! ## The booking store and the create handler -/

/-- The five values handed to `new Booking({ name, email, date, time, temple })`. -/
structure BookingInput where
  name : JSValue
  email : JSValue
  date : JSValue
  time : JSValue
  temple : JSValue

/-- The values the create handler reads from the body and passes to `new Booking`
(server.js, lines 72-74). -/
def bookingInput (body : Props) : BookingInput :=
  { name := body.get "name", email := body.get "email", date := body.get "date",
    time := body.get "time", temple := body.get "temple" }

/-- Modelled from the spec: the Booking of section 3, typed as `bookingSchema` declares
its paths (server.js, lines 31-37): `name`, `email`, `time` and `temple` are of type
`String`, `date` is of type `Date`, held here by its time value in milliseconds since
the epoch, and `id` is the identifier the store assigns. -/
structure Booking where
  id : String
  name : String
  email : String
  date : Int
  time : String
  temple : String

/-- The collection of stored bookings. -/
abbrev Store := List Booking

/-- What the storage dependency does with one create attempt: it stores the record under
an identifier of its choice, or building or saving the record fails with some error. -/
inductive StoreReply where
  | stored (id : String)
  | failed (err : JSError)

/-- Modelled from the spec: a `required` path of type `String` (the model `Booking` is
Mongoose's, not part of the source).  A string is kept as it is, a Number or a Boolean
is written as text, an array or an object cannot be cast, and a missing or empty
value does not satisfy `required`. -/
def castString (v : JSValue) : Option String :=
  match v with
  | .string s => if s == "" then none else some s
  | .number r => if r == "" then none else some r
  | .bool b => some (if b then "true" else "false")
  | _ => none

/-- Value of a run of ASCII digits; `none` for an empty run or any other character. -/
def digitsVal (cs : List Char) : Option Nat :=
  if cs.isEmpty then none
  else cs.foldl (fun acc c =>
    match acc, digitVal c with
    | some a, some d => some (10 * a + d)
    | _, _ => none) (some 0)

/-- The time value of `new Date(n)` for the Number rendered `r`: `n` truncated to an
integer, provided its magnitude is at most 8.64e15 (the abstract operation `TimeClip`).
A rendering with an exponent is either at least 1e21 (`e+`), out of range, or below
1e-6 (`e-`), truncated to 0. -/
def dateOfNumber (r : String) : Option Int :=
  let negative := r.data.head? == some '-'
  let digits := if negative then r.data.drop 1 else r.data
  if digits.contains 'e' then
    (if digits.contains '-' then some 0 else none)
  else
    match digitsVal (digits.takeWhile (fun c => !(c == '.'))) with
    | some v =>
        if v ≤ 8640000000000000 then some (if negative then -(v : Int) else (v : Int))
        else none
    | none => none

/-- Modelled from the spec: a `required` path of type `Date` (the model `Booking` is
Mongoose's, not part of the source).  A Number is read as milliseconds since the
epoch, a Boolean cannot be cast, and any other value goes to `new Date(value)`, whose
time value is `Date.parse` of the string form; an invalid Date cannot be stored and a
missing or empty value does not satisfy `required`.  A numeric string that Mongoose
would read as milliseconds lies beyond the years a Date can hold and is not treated
apart. -/
def castDate (host : Host) (v : JSValue) : Option Int :=
  match v with
  | .undefined => none
  | .null => none
  | .bool _ => none
  | .number r => dateOfNumber r
  | .string s => if s == "" then none else host.dateParse s
  | v =>
      match toStringJS v with
      | .ok s => host.dateParse s
      | .error _ => none

/-- Modelled from the spec: the record `new Booking({ name, email, date, time, temple })`
holds once the store accepts it under the identifier `id`: each submitted value cast to
the type of its path; there is no record when a value cannot be cast. -/
def Booking.cast (host : Host) (id : String) (input : BookingInput) : Option Booking :=
  match castString input.name, castString input.email, castDate host input.date,
        castString input.time, castString input.temple with
  | some name, some email, some date, some time, some temple =>
      some { id := id, name := name, email := email, date := date, time := time,
             temple := temple }
  | _, _, _, _, _ => none

/-- The error of a document that does not validate against `bookingSchema`. -/
def validationError : JSError :=
  { status := JSValue.undefined, message := JSValue.string "Booking validation failed" }

/-- Modelled from the spec: the Booking Store (the Mongoose model `Booking` and the
database behind it), `create(payload) → Booking` of section 4.2: on success the
record is stored with its assigned identifier and returned, on failure nothing is
stored.  A payload that cannot be cast to the types of `bookingSchema` fails. -/
def Store.create (host : Host) (store : Store) (reply : StoreReply) (input : BookingInput) :
    Except JSError (Booking × Store) :=
  match reply with
  | .failed err => .error err
  | .stored id =>
      match Booking.cast host id input with
      | none => .error validationError
      | some doc => .ok (doc, store ++ [doc])

/-- The decimal digits of `n` on `width` positions, the higher ones dropped. -/
def padDigits (width n : Nat) : List Char :=
  (List.range width).reverse.map (fun k => digitChar (n / 10 ^ k % 10))

/-- Year, month and day of the civil date that lies `z` days after 1970-01-01. -/
def civilFromDays (z : Int) : Int × Nat × Nat :=
  let z0 : Int := z + 719468
  let era : Int := z0 / 146097
  let doe : Int := z0 - era * 146097
  let yoe : Int := (doe - doe / 1460 + doe / 36524 - doe / 146096) / 365
  let doy : Int := doe - (365 * yoe + yoe / 4 - yoe / 100)
  let mp : Int := (5 * doy + 2) / 153
  let d : Int := doy - (153 * mp + 2) / 5 + 1
  let m : Int := if mp < 10 then mp + 3 else mp - 9
  let y : Int := yoe + era * 400 + (if m ≤ 2 then 1 else 0)
  (y, m.toNat, d.toNat)

/-- The method `Date.prototype.toISOString` on a valid time value:
`YYYY-MM-DDTHH:mm:ss.sssZ`, the year written with a sign and six digits outside 0 to
9999. -/
def toISOString (t : Int) : String :=
  let ymd := civilFromDays (t / 86400000)
  let ms : Nat := (t % 86400000).toNat
  let year : List Char :=
    if 0 ≤ ymd.1 ∧ ymd.1 ≤ 9999 then padDigits 4 ymd.1.toNat
    else (if ymd.1 < 0 then '-' else '+') :: padDigits 6 ymd.1.natAbs
  ⟨year ++ '-' :: padDigits 2 ymd.2.1 ++ '-' :: padDigits 2 ymd.2.2
    ++ 'T' :: padDigits 2 (ms / 3600000) ++ ':' :: padDigits 2 (ms / 60000 % 60)
    ++ ':' :: padDigits 2 (ms / 1000 % 60) ++ '.' :: padDigits 3 (ms % 1000) ++ ['Z']⟩

/-- Modelled from the spec: the JSON form of a stored Booking, as it appears under
`data` (the rendering is Mongoose's, not part of the source): the five paths, the date
as `toISOString` writes it, the identifier under `_id` and the version key `__v`.  The
order of the keys of a JSON object carries no meaning. -/
def Booking.toJSON (b : Booking) : JSValue :=
  .object [("name", .string b.name), ("email", .string b.email),
    ("date", .string (toISOString b.date)), ("time", .string b.time),
    ("temple", .string b.temple), ("_id", .string b.id), ("__v", .number "0")]

/-- The route handler of `POST /api/bookings` (server.js, lines 70-86): the response and
the store after it. -/
def createBooking (host : Host) (store : Store) (reply : StoreReply) (body : Props) :
    Response × Store :=
  match Store.create host store reply (bookingInput body) with
  | .ok (newBooking, store') =>
      ({ status := JSValue.number "201",
         body := JSValue.object [("success", JSValue.bool true), ("data", newBooking.toJSON),
           ("message", JSValue.string "Booking created successfully")] }, store')
  | .error _ =>
      ({ status := JSValue.number "500",
         body := JSValue.object [("success", JSValue.bool false),
           ("message", JSValue.string "Server error while creating booking")] }, store)

/-- The global error handler (server.js, lines 89-95). -/
def globalErrorHandler (err : JSError) : Response :=
  { status := jsOr err.status (JSValue.number "500"),
    body := JSValue.object [("success", JSValue.bool false),
      ("message", jsOr err.message (JSValue.string "Internal Server Error"))] }

/-- What one request leaves behind: the response, the store, and whether the route
handler was entered. -/
structure Result where
  response : Response
  store : Store
  handlerRan : Bool

/-- Express dispatch of `POST /api/bookings`: the validator runs first; its answer ends
the request, its `next()` enters the route handler, and an error it throws is passed to
the global error handler. -/
def postBookings (host : Host) (store : Store) (reply : StoreReply) (body : Props) : Result :=
  match validateBooking host body with
  | .responded res => { response := res, store := store, handlerRan := false }
  | .threw err => { response := globalErrorHandler err, store := store, handlerRan := false }
  | .next =>
      { response := (createBooking host store reply body).1,
        store := (createBooking host store reply body).2, handlerRan := true }

/-! ## The spec's reading of the time format -/

/-- The text `HH:MM` of an hour and a minute, each written with two decimal digits, as
section 4.1 of the spec words the time format. -/
def hhmm (h m : Nat) : String :=
  ⟨[digitChar (h / 10), digitChar (h % 10), ':', digitChar (m / 10), digitChar (m % 10)]⟩

/-- The four messages of the validator. -/
def validatorMessages : List String :=
  ["All fields are required", "Name, email, and temple must be strings",
   "Date must be a valid ISO date string", "Time must be in HH:MM 24-hour format"]

/-! ## Predicates and sample requests used in the statements -/

/-- The five fields every booking must carry. -/
def requiredFields : List String :=
  ["name", "email", "date", "time", "temple"]

/-- The three fields the type check looks at. -/
def textFields : List String :=
  ["name", "email", "temple"]

/-- Every required field of the body is truthy. -/
def allPresent (body : Props) : Bool :=
  requiredFields.all (fun key => toBoolean (body.get key))

/-- Each of `name`, `email` and `temple` has `typeof` equal to `"string"`. -/
def textFieldsAreStrings (body : Props) : Bool :=
  textFields.all (fun key => typeof (body.get key) == "string")

/-- The characters of a time in the form the time pattern describes: two digits that
read 00 to 23, a colon, two digits that read 00 to 59. -/
def timeShape (l : List Char) : Prop :=
  ∃ a b c d, l = [a, b, ':', c, d] ∧
    (((a = '0' ∨ a = '1') ∧ '0' ≤ b ∧ b ≤ '9') ∨ (a = '2' ∧ '0' ≤ b ∧ b ≤ '3')) ∧
    ('0' ≤ c ∧ c ≤ '5') ∧ ('0' ≤ d ∧ d ≤ '9')

/-- Assignment `o[key] = v` on the list of own properties. -/
def Props.set (o : Props) (key : String) (v : JSValue) : Props :=
  (key, v) :: o.filter (fun kv => !(kv.1 == key))

/-- The object without its property `key`. -/
def Props.delete (o : Props) (key : String) : Props :=
  o.filter (fun kv => !(kv.1 == key))

/-- The round-trip example of the spec:
`{name:"Asha", email:"a@x.com", date:"2025-06-01", time:"10:00", temple:"Shiva Temple"}`. -/
def ashaBooking : Props :=
  [("name", .string "Asha"), ("email", .string "a@x.com"), ("date", .string "2025-06-01"),
   ("time", .string "10:00"), ("temple", .string "Shiva Temple")]

/-! ## The time pattern -/

/-- A literal consumes exactly its own character. -/
theorem mem_run_char (c : Char) (l rest : List Char) :
    rest ∈ (Regex.char c).run l ↔ l = c :: rest := by
  cases l with
  | nil => simp [Regex.run]
  | cons x xs =>
    by_cases h : x = c
    · subst h; simp [Regex.run, eq_comm]
    · simp [Regex.run, h]

/-- A range consumes one character within its bounds. -/
theorem mem_run_range (lo hi : Char) (l rest : List Char) :
    rest ∈ (Regex.range lo hi).run l ↔ ∃ x, l = x :: rest ∧ lo ≤ x ∧ x ≤ hi := by
  cases l with
  | nil => simp [Regex.run]
  | cons x xs =>
    constructor
    · intro hm
      simp only [Regex.run] at hm
      split at hm
      · rename_i hc
        simp at hm hc
        exact ⟨x, by rw [hm], hc⟩
      · simp at hm
    · rintro ⟨y, hy, h1, h2⟩
      obtain ⟨rfl, rfl⟩ := List.cons.inj hy
      simp [Regex.run, h1, h2]

/-- A class given by its members consumes one of them. -/
theorem mem_run_oneOf (cs : List Char) (l rest : List Char) :
    rest ∈ (Regex.oneOf cs).run l ↔ ∃ x, l = x :: rest ∧ x ∈ cs := by
  cases l with
  | nil => simp [Regex.run]
  | cons x xs =>
    constructor
    · intro hm
      simp only [Regex.run] at hm
      split at hm
      · rename_i hc
        simp at hm hc
        exact ⟨x, by rw [hm], hc⟩
      · simp at hm
    · rintro ⟨y, hy, h1⟩
      obtain ⟨rfl, rfl⟩ := List.cons.inj hy
      simp [Regex.run, h1]

/-- Concatenation runs the second expression on what the first left. -/
theorem mem_run_seq (a b : Regex) (l rest : List Char) :
    rest ∈ (Regex.seq a b).run l ↔ ∃ mid, mid ∈ a.run l ∧ rest ∈ b.run mid := by
  simp [Regex.run, List.mem_flatMap]

/-- Alternation offers the remainders of both branches. -/
theorem mem_run_alt (a b : Regex) (l rest : List Char) :
    rest ∈ (Regex.alt a b).run l ↔ rest ∈ a.run l ∨ rest ∈ b.run l := by
  simp [Regex.run]

/-- A whole match is a run that leaves nothing. -/
theorem matchesWhole_iff_mem (r : Regex) (s : String) :
    r.matchesWhole s = true ↔ [] ∈ r.run s.data := by
  simp only [Regex.matchesWhole, List.any_eq_true]
  constructor
  · rintro ⟨rest, hm, he⟩
    cases rest with
    | nil => exact hm
    | cons _ _ => simp at he
  · intro h
    exact ⟨[], h, rfl⟩

/-- The inputs `timeRegex` consumes entirely are those of the shape `timeShape`. -/
theorem timeRegex_run_iff (l : List Char) : [] ∈ timeRegex.run l ↔ timeShape l := by
  simp only [timeRegex, Regex.digit, mem_run_seq, mem_run_alt, mem_run_char, mem_run_range,
    mem_run_oneOf, timeShape]
  constructor
  · rintro ⟨m1, h1, m2, rfl, m3, ⟨c, rfl, hc1, hc2⟩, ⟨d, rfl, hd1, hd2⟩⟩
    rcases h1 with ⟨m0, ⟨a, rfl, ha⟩, ⟨b, rfl, hb1, hb2⟩⟩ | ⟨m0, rfl, ⟨b, rfl, hb1, hb2⟩⟩
    · refine ⟨a, b, c, d, rfl, Or.inl ⟨?_, hb1, hb2⟩, ⟨hc1, hc2⟩, ⟨hd1, hd2⟩⟩
      simpa using ha
    · exact ⟨_, b, c, d, rfl, Or.inr ⟨rfl, hb1, hb2⟩, ⟨hc1, hc2⟩, ⟨hd1, hd2⟩⟩
  · rintro ⟨a, b, c, d, rfl, hab, ⟨hc1, hc2⟩, ⟨hd1, hd2⟩⟩
    refine ⟨[':', c, d], ?_, [c, d], rfl, [d], ⟨c, rfl, hc1, hc2⟩, ⟨d, rfl, hd1, hd2⟩⟩
    rcases hab with ⟨ha, hb1, hb2⟩ | ⟨rfl, hb1, hb2⟩
    · exact Or.inl ⟨[b, ':', c, d], ⟨a, rfl, by simpa using ha⟩, ⟨b, rfl, hb1, hb2⟩⟩
    · exact Or.inr ⟨[b, ':', c, d], rfl, ⟨b, rfl, hb1, hb2⟩⟩
/-- Characters are ordered by their code points. -/
theorem char_le_iff_toNat (a b : Char) : a ≤ b ↔ a.toNat ≤ b.toNat := by
  rw [Char.le_def]
  exact UInt32.le_def

/-- Code point of the digit of a number below ten. -/
theorem toNat_digitChar (n : Nat) (h : n < 10) : (digitChar n).toNat = 48 + n := by
  revert n
  decide

/-- The characters from `0` up to the digit of `k` are the digits of the numbers up to `k`. -/
theorem digit_range_iff (b : Char) (k : Nat) (hk : k < 10) :
    ('0' ≤ b ∧ b ≤ digitChar k) ↔ ∃ n, n ≤ k ∧ b = digitChar n := by
  rw [char_le_iff_toNat, char_le_iff_toNat, toNat_digitChar k hk]
  have h0 : ('0' : Char).toNat = 48 := rfl
  rw [h0]
  constructor
  · rintro ⟨h1, h2⟩
    refine ⟨b.toNat - 48, by omega, ?_⟩
    have : 48 + (b.toNat - 48) = b.toNat := by omega
    rw [digitChar, this, Char.ofNat_toNat]
  · rintro ⟨n, hn, rfl⟩
    rw [toNat_digitChar n (by omega)]
    omega

/-- The shape `timeShape` is that of `hhmm h m` for an hour below 24 and a minute below 60. -/
theorem timeShape_iff_hhmm (s : String) :
    timeShape s.data ↔ ∃ h m, h < 24 ∧ m < 60 ∧ s = hhmm h m := by
  have e9 : '9' = digitChar 9 := rfl
  have e5 : '5' = digitChar 5 := rfl
  have e3 : '3' = digitChar 3 := rfl
  constructor
  · rintro ⟨a, b, c, d, hs, hab, hc, hd⟩
    rw [e5, digit_range_iff c 5 (by omega)] at hc
    rw [e9, digit_range_iff d 9 (by omega)] at hd
    obtain ⟨nc, hnc, rfl⟩ := hc
    obtain ⟨nd, hnd, rfl⟩ := hd
    have key : ∃ na nb, na ≤ 2 ∧ nb ≤ 9 ∧ 10 * na + nb < 24 ∧ a = digitChar na ∧ b = digitChar nb := by
      rcases hab with ⟨ha, hb⟩ | ⟨ha, hb⟩
      · rw [e9, digit_range_iff b 9 (by omega)] at hb
        obtain ⟨nb, hnb, rfl⟩ := hb
        rcases ha with rfl | rfl
        · exact ⟨0, nb, by omega, hnb, by omega, rfl, rfl⟩
        · exact ⟨1, nb, by omega, hnb, by omega, rfl, rfl⟩
      · rw [e3, digit_range_iff b 3 (by omega)] at hb
        obtain ⟨nb, hnb, rfl⟩ := hb
        exact ⟨2, nb, by omega, by omega, by omega, ha, rfl⟩
    obtain ⟨na, nb, hna, hnb, hlt, rfl, rfl⟩ := key
    refine ⟨10 * na + nb, 10 * nc + nd, hlt, by omega, ?_⟩
    have h1 : (10 * na + nb) / 10 = na := by omega
    have h2 : (10 * na + nb) % 10 = nb := by omega
    have h3 : (10 * nc + nd) / 10 = nc := by omega
    have h4 : (10 * nc + nd) % 10 = nd := by omega
    rw [hhmm, h1, h2, h3, h4, ← hs]
  · rintro ⟨h, m, hh, hm, rfl⟩
    refine ⟨digitChar (h / 10), digitChar (h % 10), digitChar (m / 10), digitChar (m % 10), rfl,
      ?_, ?_, ?_⟩
    · by_cases h20 : h < 20
      · left
        refine ⟨?_, ?_⟩
        · have : h / 10 = 0 ∨ h / 10 = 1 := by omega
          rcases this with e | e <;> rw [e]
          · left; rfl
          · right; rfl
        · rw [e9, digit_range_iff _ 9 (by omega)]
          exact ⟨h % 10, by omega, rfl⟩
      · right
        refine ⟨?_, ?_⟩
        · have : h / 10 = 2 := by omega
          rw [this]; rfl
        · rw [e3, digit_range_iff _ 3 (by omega)]
          exact ⟨h % 10, by omega, rfl⟩
    · rw [e5, digit_range_iff _ 5 (by omega)]
      exact ⟨m / 10, by omega, rfl⟩
    · rw [e9, digit_range_iff _ 9 (by omega)]
      exact ⟨m % 10, by omega, rfl⟩

/-- The strings matching `timeRegex` are the texts `HH:MM` of an hour below 24 and a minute
below 60. -/
theorem timeRegex_matchesWhole_iff (s : String) :
    timeRegex.matchesWhole s = true ↔ ∃ h m, h < 24 ∧ m < 60 ∧ s = hhmm h m := by
  rw [matchesWhole_iff_mem, timeRegex_run_iff, timeShape_iff_hhmm]

/-- The presence predicate, field by field. -/
theorem allPresent_eq (body : Props) :
    allPresent body = (toBoolean (body.get "name") && toBoolean (body.get "email")
      && toBoolean (body.get "date") && toBoolean (body.get "time")
      && toBoolean (body.get "temple")) := by
  simp [allPresent, requiredFields, Bool.and_assoc]

/-- The type predicate, field by field. -/
theorem textFieldsAreStrings_eq (body : Props) :
    textFieldsAreStrings body = (typeof (body.get "name") == "string"
      && typeof (body.get "email") == "string" && typeof (body.get "temple") == "string") := by
  simp [textFieldsAreStrings, textFields, Bool.and_assoc]

/-- The validator, with its two first conditions folded. -/
theorem validateBooking_eq (host : Host) (body : Props) :
    validateBooking host body =
      if allPresent body = false then .responded (reject "All fields are required")
      else if textFieldsAreStrings body = false then
        .responded (reject "Name, email, and temple must be strings")
      else
        match toStringJS (body.get "date") with
        | .error e => .threw e
        | .ok d =>
            if isNaN (host.dateParse d) then
              .responded (reject "Date must be a valid ISO date string")
            else
              match timeRegex.test (body.get "time") with
              | .error e => .threw e
              | .ok matched =>
                  if !matched then
                    .responded (reject "Time must be in HH:MM 24-hour format")
                  else .next := by
  rw [allPresent_eq, textFieldsAreStrings_eq]
  unfold validateBooking
  refine if_congr ?_ rfl (if_congr ?_ rfl rfl)
  · generalize toBoolean (body.get "name") = p1
    generalize toBoolean (body.get "email") = p2
    generalize toBoolean (body.get "date") = p3
    generalize toBoolean (body.get "time") = p4
    generalize toBoolean (body.get "temple") = p5
    cases p1 <;> cases p2 <;> cases p3 <;> cases p4 <;> cases p5 <;> decide
  · simp only [bne]
    generalize (typeof (body.get "name") == "string") = q1
    generalize (typeof (body.get "email") == "string") = q2
    generalize (typeof (body.get "temple") == "string") = q3
    cases q1 <;> cases q2 <;> cases q3 <;> decide

/-! ## Errors of `ToString` -/

/-- An error of `Array.prototype.join` comes from the first element or from the rest. -/
theorem joinJS_cons_error (x : JSValue) (rest : List JSValue) (e : JSError)
    (h : joinJS (x :: rest) = Except.error e) :
    toStringJS x = Except.error e ∨ joinJS rest = Except.error e := by
  cases x <;> simp only [joinJS] at h <;>
    repeat' first
      | (cases h; done)
      | (left; rw [← h]; assumption)
      | (right; rw [← h]; assumption)
      | split at h

mutual
/-- The only error `ToString` raises on these values is the `TypeError` of
`OrdinaryToPrimitive`. -/
theorem toStringJS_error : ∀ (v : JSValue) (e : JSError),
    toStringJS v = Except.error e → e = typeErrorToPrimitive
  | .undefined, e, h => by simp [toStringJS] at h
  | .null, e, h => by simp [toStringJS] at h
  | .bool _, e, h => by simp [toStringJS] at h
  | .number _, e, h => by simp [toStringJS] at h
  | .string _, e, h => by simp [toStringJS] at h
  | .array xs, e, h => joinJS_error xs e (by simpa [toStringJS] using h)
  | .object ps, e, h => by
      simp only [toStringJS] at h
      split at h
      · exact (Except.error.inj h).symm
      · cases h
termination_by structural v => v

/-- The only error `Array.prototype.join` raises on these values is the `TypeError` of
`OrdinaryToPrimitive`. -/
theorem joinJS_error : ∀ (xs : List JSValue) (e : JSError),
    joinJS xs = Except.error e → e = typeErrorToPrimitive
  | [], e, h => by simp [joinJS] at h
  | x :: rest, e, h =>
      match joinJS_cons_error x rest e h with
      | Or.inl hx => toStringJS_error x e hx
      | Or.inr hr => joinJS_error rest e hr
termination_by structural xs => xs
end
/-- The only error `RegExp.prototype.test` raises is that of `ToString`. -/
theorem regex_test_error (r : Regex) (v : JSValue) (e : JSError)
    (h : r.test v = Except.error e) : e = typeErrorToPrimitive := by
  unfold Regex.test at h
  split at h
  · rename_i e1 he
    cases Except.error.inj h
    exact toStringJS_error v e he
  · cases h

/-- The global error handler on the `TypeError` of `ToString`: status 500 and the
engine message. -/
theorem globalErrorHandler_typeError :
    globalErrorHandler typeErrorToPrimitive =
      { status := JSValue.number "500",
        body := JSValue.object [("success", JSValue.bool false),
          ("message", JSValue.string "Cannot convert object to primitive value")] } := rfl

/-! ## The validator and the request pipeline -/

/-- Reading a property the object does not have gives `undefined`. -/
theorem get_of_not_hasOwn (body : Props) (key : String) (h : body.hasOwn key = false) :
    body.get key = JSValue.undefined := by
  unfold Props.hasOwn at h
  unfold Props.get
  have hnone : body.find? (fun kv => kv.1 == key) = none := by
    rw [List.find?_eq_none]
    intro kv hkv
    have := List.any_eq_false.mp h kv hkv
    simpa using this
  rw [hnone]

/-- One falsy required field makes the presence predicate false. -/
theorem allPresent_false_of_falsy (body : Props) (key : String) (hk : key ∈ requiredFields)
    (h : toBoolean (body.get key) = false) : allPresent body = false := by
  unfold allPresent
  rw [List.all_eq_false]
  exact ⟨key, hk, by simp [h]⟩

/-- One text field that is not a string makes the type predicate false. -/
theorem textFieldsAreStrings_false_of_nonstring (body : Props) (key : String)
    (hk : key ∈ textFields) (h : typeof (body.get key) ≠ "string") :
    textFieldsAreStrings body = false := by
  unfold textFieldsAreStrings
  rw [List.all_eq_false]
  exact ⟨key, hk, by simp [h]⟩

/-- C2: a body in which one of name, email, date, time, temple is missing or falsy is
answered with status 400 and `{ success: false, message: 'All fields are required' }`,
whatever the other fields hold; the store is left alone. -/
theorem missing_field_rejected (host : Host) (store : Store) (reply : StoreReply)
    (body : Props)
    (h : ∃ key ∈ requiredFields, body.hasOwn key = false ∨ toBoolean (body.get key) = false) :
    postBookings host store reply body =
      { response :=
          { status := JSValue.number "400",
            body := JSValue.object [("success", JSValue.bool false),
              ("message", JSValue.string "All fields are required")] },
        store := store, handlerRan := false } := by
  obtain ⟨key, hk, hkey⟩ := h
  have hfalsy : toBoolean (body.get key) = false := by
    rcases hkey with hm | hf
    · rw [get_of_not_hasOwn body key hm]; rfl
    · exact hf
  have hp := allPresent_false_of_falsy body key hk hfalsy
  simp [postBookings, validateBooking_eq, hp, reject]

/-- The body of the round-trip example without `email` is rejected with status 400. -/
theorem missing_field_rejected_witness :
    (∃ key ∈ requiredFields, (ashaBooking.delete "email").hasOwn key = false ∨
        toBoolean ((ashaBooking.delete "email").get key) = false) ∧
      (postBookings strictHost [] (StoreReply.stored "b1") (ashaBooking.delete "email")).response.status
        = JSValue.number "400" :=
  ⟨⟨"email", by decide, Or.inl rfl⟩,
   by rw [missing_field_rejected strictHost [] (StoreReply.stored "b1") (ashaBooking.delete "email")
        ⟨"email", by decide, Or.inl rfl⟩]⟩

/-- C3, as stated, fails: with `name: 0` (a number) and every other field valid the
answer is 'All fields are required', not the type message. -/
theorem number_zero_name_gets_presence_message :
    typeof ((ashaBooking.set "name" (JSValue.number "0")).get "name") ≠ "string" ∧
      (postBookings strictHost [] (StoreReply.stored "b1")
          (ashaBooking.set "name" (JSValue.number "0"))).response
        = reject "All fields are required" ∧
      (postBookings strictHost [] (StoreReply.stored "b1")
          (ashaBooking.set "name" (JSValue.number "0"))).response
        ≠ reject "Name, email, and temple must be strings" := by
  refine ⟨by decide, rfl, ?_⟩
  have e : (postBookings strictHost [] (StoreReply.stored "b1")
      (ashaBooking.set "name" (JSValue.number "0"))).response
        = reject "All fields are required" := rfl
  rw [e]
  simp [reject]

/-- C3, amended: when all five fields are truthy and one of name, email, temple is not a
string, the answer is status 400 with 'Name, email, and temple must be strings', and
the store is left alone. -/
theorem nonstring_text_field_rejected (host : Host) (store : Store) (reply : StoreReply)
    (body : Props) (hp : allPresent body = true)
    (ht : ∃ key ∈ textFields, typeof (body.get key) ≠ "string") :
    postBookings host store reply body =
      { response :=
          { status := JSValue.number "400",
            body := JSValue.object [("success", JSValue.bool false),
              ("message", JSValue.string "Name, email, and temple must be strings")] },
        store := store, handlerRan := false } := by
  obtain ⟨key, hk, hkey⟩ := ht
  have hs := textFieldsAreStrings_false_of_nonstring body key hk hkey
  simp [postBookings, validateBooking_eq, hp, hs, reject]

/-- The body with `name: 42` is rejected with status 400. -/
theorem nonstring_text_field_rejected_witness :
    allPresent (ashaBooking.set "name" (JSValue.number "42")) = true ∧
      (∃ key ∈ textFields,
        typeof ((ashaBooking.set "name" (JSValue.number "42")).get key) ≠ "string") ∧
      (postBookings strictHost [] (StoreReply.stored "b1")
          (ashaBooking.set "name" (JSValue.number "42"))).response.status
        = JSValue.number "400" :=
  ⟨rfl, ⟨"name", by decide, by decide⟩,
   by rw [nonstring_text_field_rejected strictHost [] (StoreReply.stored "b1")
        (ashaBooking.set "name" (JSValue.number "42")) rfl ⟨"name", by decide, by decide⟩]⟩

/-- Once presence, type and date checks pass, the outcome is decided by the time pattern
on the string form of `time`. -/
theorem validateBooking_string_time (host : Host) (body : Props) (d t : String)
    (hp : allPresent body = true) (ht : textFieldsAreStrings body = true)
    (hd : toStringJS (body.get "date") = Except.ok d)
    (hparse : (host.dateParse d).isSome = true)
    (htime : toStringJS (body.get "time") = Except.ok t) :
    validateBooking host body =
      if timeRegex.matchesWhole t = true then Outcome.next
      else Outcome.responded (reject "Time must be in HH:MM 24-hour format") := by
  have hnan : isNaN (host.dateParse d) = false := by
    unfold isNaN
    cases hx : host.dateParse d with
    | none => rw [hx] at hparse; cases hparse
    | some _ => rfl
  rw [validateBooking_eq, hp, ht]
  simp only [hd, hnan, Regex.test, htime]
  cases timeRegex.matchesWhole t <;> simp

/-- C4: for a body whose other fields are valid and whose time is a string `t`, the
validator lets the request through exactly when `t` is `HH:MM` with an hour from 00 to
23 and a minute from 00 to 59, which is exactly when `t` matches the time pattern;
any other string is answered with status 400 and 'Time must be in HH:MM 24-hour
format'.  '09:30' and '23:59' match; '9:30', '24:00', '12:60' and '09:30' followed by a
newline do not. -/
theorem time_check_accepts_exactly_hhmm (host : Host) (store : Store) (reply : StoreReply)
    (body : Props) (d t : String)
    (hp : allPresent body = true) (ht : textFieldsAreStrings body = true)
    (hd : toStringJS (body.get "date") = Except.ok d)
    (hparse : (host.dateParse d).isSome = true)
    (htime : body.get "time" = JSValue.string t) :
    (timeRegex.matchesWhole t = true ↔ ∃ h m, h < 24 ∧ m < 60 ∧ t = hhmm h m) ∧
    (validateBooking host body = Outcome.next ↔ ∃ h m, h < 24 ∧ m < 60 ∧ t = hhmm h m) ∧
    ((¬ ∃ h m, h < 24 ∧ m < 60 ∧ t = hhmm h m) →
      postBookings host store reply body =
        { response :=
            { status := JSValue.number "400",
              body := JSValue.object [("success", JSValue.bool false),
                ("message", JSValue.string "Time must be in HH:MM 24-hour format")] },
          store := store, handlerRan := false }) ∧
    timeRegex.matchesWhole "09:30" = true ∧ timeRegex.matchesWhole "23:59" = true ∧
    timeRegex.matchesWhole "9:30" = false ∧ timeRegex.matchesWhole "24:00" = false ∧
    timeRegex.matchesWhole "12:60" = false ∧ timeRegex.matchesWhole "09:30\n" = false := by
  have hts : toStringJS (body.get "time") = Except.ok t := by rw [htime]; rfl
  have hv := validateBooking_string_time host body d t hp ht hd hparse hts
  refine ⟨timeRegex_matchesWhole_iff t, ?_, ?_, by decide, by decide, by decide, by decide,
    by decide, by decide⟩
  · rw [← timeRegex_matchesWhole_iff, hv]
    cases timeRegex.matchesWhole t <;> simp
  · intro hno
    rw [← timeRegex_matchesWhole_iff] at hno
    have hf : timeRegex.matchesWhole t = false := by
      cases hx : timeRegex.matchesWhole t with
      | true => exact absurd hx hno
      | false => rfl
    simp [postBookings, hv, hf, reject]

/-- The time '24:00' in an otherwise valid body gets the time message. -/
theorem time_check_accepts_exactly_hhmm_witness :
    allPresent (ashaBooking.set "time" (JSValue.string "24:00")) = true ∧
      textFieldsAreStrings (ashaBooking.set "time" (JSValue.string "24:00")) = true ∧
      (strictHost.dateParse "2025-06-01").isSome = true ∧
      (postBookings strictHost [] (StoreReply.stored "b1")
          (ashaBooking.set "time" (JSValue.string "24:00"))).response
        = reject "Time must be in HH:MM 24-hour format" := by
  have w := time_check_accepts_exactly_hhmm strictHost [] (StoreReply.stored "b1")
    (ashaBooking.set "time" (JSValue.string "24:00")) "2025-06-01" "24:00" rfl rfl rfl rfl rfl
  refine ⟨rfl, rfl, rfl, ?_⟩
  have hno : ¬ ∃ h m, h < 24 ∧ m < 60 ∧ "24:00" = hhmm h m := by
    intro hex
    have hm := w.1.mpr hex
    revert hm
    decide
  rw [w.2.2.1 hno]
  rfl

/-- C5, as stated, fails: with `email` missing and the date 'not-a-date' the answer is
'All fields are required', not the date message. -/
theorem unparseable_date_gets_presence_message :
    toStringJS (((ashaBooking.delete "email").set "date" (JSValue.string "not-a-date")).get "date")
        = Except.ok "not-a-date" ∧
      isNaN (strictHost.dateParse "not-a-date") = true ∧
      (postBookings strictHost [] (StoreReply.stored "b1")
          ((ashaBooking.delete "email").set "date" (JSValue.string "not-a-date"))).response
        = reject "All fields are required" ∧
      (postBookings strictHost [] (StoreReply.stored "b1")
          ((ashaBooking.delete "email").set "date" (JSValue.string "not-a-date"))).response
        ≠ reject "Date must be a valid ISO date string" := by
  refine ⟨rfl, rfl, rfl, ?_⟩
  have e : (postBookings strictHost [] (StoreReply.stored "b1")
      ((ashaBooking.delete "email").set "date" (JSValue.string "not-a-date"))).response
        = reject "All fields are required" := rfl
  rw [e]
  simp [reject]

/-- The route handler answers 201 or 500. -/
theorem createBooking_status (host : Host) (store : Store) (reply : StoreReply)
    (body : Props) :
    (createBooking host store reply body).1.status = JSValue.number "201" ∨
      (createBooking host store reply body).1.status = JSValue.number "500" := by
  unfold createBooking
  cases Store.create host store reply (bookingInput body) with
  | ok r => left; rfl
  | error e => right; rfl

/-- C5, amended: when all five fields are truthy and name, email, temple are strings, a
date whose string form `Date.parse` turns into `NaN` is answered with status 400 and
'Date must be a valid ISO date string'; and a date that is a valid ISO date string
`YYYY-MM-DD` never gets that message, whatever the other fields hold. -/
theorem date_check (host : Host) (store : Store) (reply : StoreReply) (body : Props)
    (d : String) (hd : toStringJS (body.get "date") = Except.ok d) :
    (allPresent body = true → textFieldsAreStrings body = true →
      isNaN (host.dateParse d) = true →
      postBookings host store reply body =
        { response :=
            { status := JSValue.number "400",
              body := JSValue.object [("success", JSValue.bool false),
                ("message", JSValue.string "Date must be a valid ISO date string")] },
          store := store, handlerRan := false }) ∧
    (body.get "date" = JSValue.string d → (parseISODate d).isSome = true →
      (postBookings host store reply body).response
        ≠ { status := JSValue.number "400",
            body := JSValue.object [("success", JSValue.bool false),
              ("message", JSValue.string "Date must be a valid ISO date string")] }) := by
  constructor
  · intro hp ht hnan
    simp [postBookings, validateBooking_eq, hp, ht, hd, hnan, reject]
  · intro _ hiso
    have hparse := host.dateParse_isoDate d hiso
    have hnan : isNaN (host.dateParse d) = false := by
      unfold isNaN
      cases hx : host.dateParse d with
      | none => rw [hx] at hparse; cases hparse
      | some _ => rfl
    unfold postBookings
    rw [validateBooking_eq]
    by_cases hp : allPresent body = false
    · simp [hp, reject]
    · by_cases ht : textFieldsAreStrings body = false
      · simp [hp, ht, reject]
      · simp only [hp, ht, hd, hnan, if_false]
        cases hreg : timeRegex.test (body.get "time") with
        | error e =>
          cases regex_test_error _ _ _ hreg
          intro hc
          have hs := congrArg Response.status hc
          simp at hs
          rw [globalErrorHandler_typeError] at hs
          simp at hs
        | ok matched =>
          cases matched
          · simp [reject]
          · simp only []
            intro hc
            have hs := congrArg Response.status hc
            rcases createBooking_status host store reply body with h | h <;>
              · simp [h] at hs

/-- The date 'not-a-date' in an otherwise valid body gets the date message. -/
theorem date_check_witness :
    toStringJS ((ashaBooking.set "date" (JSValue.string "not-a-date")).get "date")
        = Except.ok "not-a-date" ∧
      (postBookings strictHost [] (StoreReply.stored "b1")
          (ashaBooking.set "date" (JSValue.string "not-a-date"))).response
        = reject "Date must be a valid ISO date string" := by
  have w := date_check strictHost [] (StoreReply.stored "b1")
    (ashaBooking.set "date" (JSValue.string "not-a-date")) "not-a-date" rfl
  refine ⟨rfl, ?_⟩
  rw [w.1 rfl rfl rfl]
  rfl

/-- Every answer of the validator is a rejection with one of its four messages. -/
theorem validateBooking_responded (host : Host) (body : Props) (res : Response)
    (h : validateBooking host body = Outcome.responded res) :
    ∃ message ∈ validatorMessages, res = reject message := by
  rw [validateBooking_eq] at h
  split at h
  · exact ⟨_, by simp [validatorMessages], (Outcome.responded.inj h).symm⟩
  · split at h
    · exact ⟨_, by simp [validatorMessages], (Outcome.responded.inj h).symm⟩
    · split at h
      · cases h
      · split at h
        · exact ⟨_, by simp [validatorMessages], (Outcome.responded.inj h).symm⟩
        · split at h
          · cases h
          · split at h
            · exact ⟨_, by simp [validatorMessages], (Outcome.responded.inj h).symm⟩
            · cases h

/-- What `next()` guarantees: every required field is truthy, name, email and temple are
strings, and the string forms of `date` and `time` exist, parse and match the time
pattern respectively. -/
theorem validateBooking_next_fields (host : Host) (body : Props)
    (h : validateBooking host body = Outcome.next) :
    allPresent body = true ∧ textFieldsAreStrings body = true ∧
      (∃ d, toStringJS (body.get "date") = Except.ok d ∧ (host.dateParse d).isSome = true) ∧
      (∃ t, toStringJS (body.get "time") = Except.ok t ∧ timeRegex.matchesWhole t = true) := by
  rw [validateBooking_eq] at h
  split at h
  · cases h
  · rename_i hp
    split at h
    · cases h
    · rename_i ht
      split at h
      · cases h
      · rename_i d hd
        split at h
        · cases h
        · rename_i hnan
          split at h
          · cases h
          · rename_i matched hreg
            split at h
            · cases h
            · rename_i hm
              refine ⟨by simpa using hp, by simpa using ht, ⟨d, hd, ?_⟩, ?_⟩
              · unfold isNaN at hnan
                cases hx : host.dateParse d with
                | none => rw [hx] at hnan; simp at hnan
                | some _ => rfl
              · unfold Regex.test at hreg
                split at hreg
                · cases hreg
                · rename_i t hts
                  cases Except.ok.inj hreg
                  exact ⟨t, hts, by simpa using hm⟩

/-- C6: when `validateBooking` rejects a body, that is, answers the request itself, the
route handler is not entered, the store is exactly what it was, and the response is
the validator's: status 400 (so neither 201 nor 500), `success: false`, and one of the
four validator messages.  More generally the store is untouched and the handler not
entered whenever the validator does not call `next()`. -/
theorem rejected_never_reaches_store (host : Host) (store : Store) (reply : StoreReply)
    (body : Props) (res : Response) (h : validateBooking host body = Outcome.responded res) :
    postBookings host store reply body =
        { response := res, store := store, handlerRan := false } ∧
      (∃ message ∈ validatorMessages,
        res = { status := JSValue.number "400",
                body := JSValue.object [("success", JSValue.bool false),
                  ("message", JSValue.string message)] }) ∧
      res.status = JSValue.number "400" ∧ res.status ≠ JSValue.number "201" ∧
      res.status ≠ JSValue.number "500" ∧
      (∀ (host' : Host) (body' : Props), validateBooking host' body' ≠ Outcome.next →
        (postBookings host' store reply body').store = store ∧
          (postBookings host' store reply body').handlerRan = false) := by
  obtain ⟨message, hm, rfl⟩ := validateBooking_responded host body res h
  refine ⟨by simp [postBookings, h], ⟨message, hm, rfl⟩, rfl, by simp [reject], by simp [reject], ?_⟩
  intro host' body' hne
  unfold postBookings
  cases hv : validateBooking host' body' with
  | responded r => exact ⟨rfl, rfl⟩
  | threw e => exact ⟨rfl, rfl⟩
  | next => exact absurd hv hne

/-- The time '9:30' is rejected and the empty store stays empty. -/
theorem rejected_never_reaches_store_witness :
    validateBooking strictHost (ashaBooking.set "time" (JSValue.string "9:30"))
        = Outcome.responded (reject "Time must be in HH:MM 24-hour format") ∧
      (postBookings strictHost [] (StoreReply.stored "b1")
          (ashaBooking.set "time" (JSValue.string "9:30"))).store = [] :=
  ⟨rfl,
   by rw [(rejected_never_reaches_store strictHost [] (StoreReply.stored "b1")
        (ashaBooking.set "time" (JSValue.string "9:30"))
        (reject "Time must be in HH:MM 24-hour format") rfl).1]⟩

/-- A record exists exactly when each submitted value casts to the type of its path. -/
theorem cast_eq_some (host : Host) (id : String) (input : BookingInput) (doc : Booking)
    (h : Booking.cast host id input = some doc) :
    doc.id = id ∧ castString input.name = some doc.name ∧
      castString input.email = some doc.email ∧ castDate host input.date = some doc.date ∧
      castString input.time = some doc.time ∧ castString input.temple = some doc.temple := by
  unfold Booking.cast at h
  split at h
  · rename_i name email date time temple h1 h2 h3 h4 h5
    cases Option.some.inj h
    exact ⟨rfl, h1, h2, h3, h4, h5⟩
  · cases h

/-- A value of type `"string"` that casts to a text is that text. -/
theorem castString_of_typeof (v : JSValue) (s : String) (ht : typeof v = "string")
    (h : castString v = some s) : JSValue.string s = v := by
  cases v with
  | string s0 =>
    simp only [castString] at h
    split at h
    · cases h
    · cases Option.some.inj h; rfl
  | undefined => simp [typeof] at ht
  | null => simp [typeof] at ht
  | bool b => simp [typeof] at ht
  | number r => simp [typeof] at ht
  | array xs => simp [typeof] at ht
  | object ps => simp [typeof] at ht

/-- A value that casts to a text has that text as its string form. -/
theorem toStringJS_of_castString (v : JSValue) (s : String) (h : castString v = some s) :
    toStringJS v = Except.ok s := by
  cases v with
  | string s0 =>
    simp only [castString] at h
    split at h
    · cases h
    · cases Option.some.inj h; rfl
  | number r =>
    simp only [castString] at h
    split at h
    · cases h
    · cases Option.some.inj h; rfl
  | bool b =>
    simp only [castString] at h
    cases Option.some.inj h; rfl
  | undefined => simp [castString] at h
  | null => simp [castString] at h
  | array xs => simp [castString] at h
  | object ps => simp [castString] at h

/-- What a successful create returns: the cast record, appended to the store. -/
theorem create_eq_ok (host : Host) (store store' : Store) (id : String)
    (input : BookingInput) (doc : Booking)
    (h : Store.create host store (StoreReply.stored id) input = Except.ok (doc, store')) :
    Booking.cast host id input = some doc ∧ store' = store ++ [doc] := by
  unfold Store.create at h
  simp only at h
  split at h
  · cases h
  · rename_i d hd
    have := Except.ok.inj h
    cases this
    exact ⟨hd, rfl⟩

/-- A truthy value of type `"string"` is a non-empty string and casts to itself. -/
theorem castString_of_truthy_string (v : JSValue) (hb : toBoolean v = true)
    (ht : typeof v = "string") : ∃ s, v = JSValue.string s ∧ castString v = some s := by
  cases v with
  | string s =>
    refine ⟨s, rfl, ?_⟩
    simp only [toBoolean, Bool.not_eq_true'] at hb
    simp [castString, hb]
  | undefined => simp [typeof] at ht
  | null => simp [typeof] at ht
  | bool b => simp [typeof] at ht
  | number r => simp [typeof] at ht
  | array xs => simp [typeof] at ht
  | object ps => simp [typeof] at ht

/-- A body that passes the validator with a string date and a string time can be cast,
so the create succeeds whenever the store accepts the write. -/
theorem create_succeeds_of_text (host : Host) (store : Store) (id : String) (body : Props)
    (h : validateBooking host body = Outcome.next)
    (hd : typeof (body.get "date") = "string") (ht : typeof (body.get "time") = "string") :
    ∃ doc, Store.create host store (StoreReply.stored id) (bookingInput body)
      = Except.ok (doc, store ++ [doc]) := by
  obtain ⟨hp, hstr, ⟨d, hds, hparse⟩, _⟩ := validateBooking_next_fields host body h
  rw [allPresent_eq] at hp
  simp only [Bool.and_eq_true] at hp
  obtain ⟨⟨⟨⟨pn, pe⟩, pd⟩, pt⟩, ptm⟩ := hp
  rw [textFieldsAreStrings_eq] at hstr
  simp only [Bool.and_eq_true, beq_iff_eq] at hstr
  obtain ⟨⟨tn, te⟩, tt⟩ := hstr
  obtain ⟨n, _, cn⟩ := castString_of_truthy_string _ pn tn
  obtain ⟨e, _, ce⟩ := castString_of_truthy_string _ pe te
  obtain ⟨tm, _, ctm⟩ := castString_of_truthy_string _ ptm tt
  obtain ⟨t, _, ct⟩ := castString_of_truthy_string _ pt ht
  obtain ⟨s, es, _⟩ := castString_of_truthy_string _ pd hd
  have hsd : s = d := by
    rw [es] at hds
    exact Except.ok.inj hds
  subst hsd
  have hne : (s == "") = false := by
    rw [es] at pd
    simpa [toBoolean] using pd
  cases hx : host.dateParse s with
  | none => rw [hx] at hparse; cases hparse
  | some ms =>
    have cd : castDate host (body.get "date") = some ms := by
      rw [es]
      simp [castDate, hne, hx]
    refine ⟨{ id := id, name := n, email := e, date := ms, time := t, temple := tm }, ?_⟩
    simp only [Store.create, Booking.cast, bookingInput, cn, ce, cd, ct, ctm]

/-- The response and the store after a create that returned `doc`. -/
theorem postBookings_of_create (host : Host) (store store' : Store) (reply : StoreReply)
    (body : Props) (doc : Booking) (h : validateBooking host body = Outcome.next)
    (hw : Store.create host store reply (bookingInput body) = Except.ok (doc, store')) :
    postBookings host store reply body =
      { response :=
          { status := JSValue.number "201",
            body := JSValue.object [("success", JSValue.bool true), ("data", doc.toJSON),
              ("message", JSValue.string "Booking created successfully")] },
        store := store', handlerRan := true } := by
  simp [postBookings, h, createBooking, hw]

/-- C8: when a body passes `validateBooking` and the store accepts the write, returning
the record `doc`, the response is status 201 with `{ success: true, data, message:
'Booking created successfully' }`, `data` being the JSON form of `doc`: the submitted
name, email and temple, the submitted time as text, the submitted date as the Date it
denotes, and the assigned identifier; the store gains exactly that record at its
end.  This holds for every store, so the same body submitted again is accepted again
and the store then holds both records. -/
theorem valid_booking_created (host : Host) (store store' : Store) (id : String)
    (body : Props) (doc : Booking) (h : validateBooking host body = Outcome.next)
    (hw : Store.create host store (StoreReply.stored id) (bookingInput body)
      = Except.ok (doc, store')) :
    postBookings host store (StoreReply.stored id) body =
        { response :=
            { status := JSValue.number "201",
              body := JSValue.object [("success", JSValue.bool true),
                ("data", JSValue.object [("name", body.get "name"), ("email", body.get "email"),
                  ("date", JSValue.string (toISOString doc.date)),
                  ("time", JSValue.string doc.time), ("temple", body.get "temple"),
                  ("_id", JSValue.string id), ("__v", JSValue.number "0")]),
                ("message", JSValue.string "Booking created successfully")] },
          store := store ++ [doc], handlerRan := true } ∧
      store' = store ++ [doc] ∧ doc.id = id ∧
      JSValue.string doc.name = body.get "name" ∧
      JSValue.string doc.email = body.get "email" ∧
      JSValue.string doc.temple = body.get "temple" ∧
      toStringJS (body.get "time") = Except.ok doc.time ∧
      timeRegex.matchesWhole doc.time = true ∧
      castDate host (body.get "date") = some doc.date ∧
      (∀ s, body.get "date" = JSValue.string s → host.dateParse s = some doc.date) ∧
      ∀ id' : String,
        postBookings host (store ++ [doc]) (StoreReply.stored id') body =
          { response :=
              { status := JSValue.number "201",
                body := JSValue.object [("success", JSValue.bool true),
                  ("data", JSValue.object [("name", body.get "name"),
                    ("email", body.get "email"),
                    ("date", JSValue.string (toISOString doc.date)),
                    ("time", JSValue.string doc.time), ("temple", body.get "temple"),
                    ("_id", JSValue.string id'), ("__v", JSValue.number "0")]),
                  ("message", JSValue.string "Booking created successfully")] },
            store := store ++ [doc, { doc with id := id' }], handlerRan := true } := by
  obtain ⟨hcast, hstore⟩ := create_eq_ok host store store' id (bookingInput body) doc hw
  obtain ⟨hid, hname, hemail, hdate, htime, htemple⟩ :=
    cast_eq_some host id (bookingInput body) doc hcast
  obtain ⟨_, hstr, _, ⟨t, ht, hmatch⟩⟩ := validateBooking_next_fields host body h
  rw [textFieldsAreStrings_eq] at hstr
  simp only [Bool.and_eq_true, beq_iff_eq] at hstr
  obtain ⟨⟨tn, te⟩, tt⟩ := hstr
  have ename := castString_of_typeof _ _ tn hname
  have eemail := castString_of_typeof _ _ te hemail
  have etemple := castString_of_typeof _ _ tt htemple
  have etime := toStringJS_of_castString _ _ htime
  have ejson : ∀ i : String, Booking.toJSON { doc with id := i } =
      JSValue.object [("name", body.get "name"), ("email", body.get "email"),
        ("date", JSValue.string (toISOString doc.date)),
        ("time", JSValue.string doc.time), ("temple", body.get "temple"),
        ("_id", JSValue.string i), ("__v", JSValue.number "0")] := by
    intro i
    simp only [Booking.toJSON]
    rw [ename, eemail, etemple]
  have hdoc : { doc with id := id } = doc := by
    cases doc
    simp only at hid
    subst hid
    rfl
  refine ⟨?_, hstore, hid, ename, eemail, etemple, etime, ?_, hdate, ?_, ?_⟩
  · rw [postBookings_of_create host store store' _ body doc h hw, hstore, ← ejson id, hdoc]
  · have : t = doc.time := by
      have e2 : Except.ok t = (Except.ok doc.time : Except JSError String) := by
        rw [← ht]; exact etime
      exact Except.ok.inj e2
    rw [← this]; exact hmatch
  · intro s hs
    have hd := hdate
    simp only [bookingInput] at hd
    rw [hs] at hd
    simp only [castDate] at hd
    split at hd
    · cases hd
    · exact hd
  · intro id'
    have hcast' : Booking.cast host id' (bookingInput body) = some { doc with id := id' } := by
      unfold Booking.cast
      rw [hname, hemail, hdate, htime, htemple]
    have hw' : Store.create host (store ++ [doc]) (StoreReply.stored id') (bookingInput body)
        = Except.ok ({ doc with id := id' }, (store ++ [doc]) ++ [{ doc with id := id' }]) := by
      simp only [Store.create, hcast']
    rw [postBookings_of_create host _ _ _ body _ h hw', ejson id']
    simp

/-- The round-trip example of the spec is stored as the single record of an empty store
and comes back with its date as an ISO timestamp. -/
theorem valid_booking_created_witness :
    validateBooking strictHost ashaBooking = Outcome.next ∧
      Store.create strictHost [] (StoreReply.stored "b1") (bookingInput ashaBooking)
        = Except.ok
            ({ id := "b1", name := "Asha", email := "a@x.com", date := 1748736000000,
               time := "10:00", temple := "Shiva Temple" },
             [{ id := "b1", name := "Asha", email := "a@x.com", date := 1748736000000,
                time := "10:00", temple := "Shiva Temple" }]) ∧
      (postBookings strictHost [] (StoreReply.stored "b1") ashaBooking).response =
        { status := JSValue.number "201",
          body := JSValue.object [("success", JSValue.bool true),
            ("data", JSValue.object [("name", JSValue.string "Asha"),
              ("email", JSValue.string "a@x.com"),
              ("date", JSValue.string "2025-06-01T00:00:00.000Z"),
              ("time", JSValue.string "10:00"), ("temple", JSValue.string "Shiva Temple"),
              ("_id", JSValue.string "b1"), ("__v", JSValue.number "0")]),
            ("message", JSValue.string "Booking created successfully")] } :=
  ⟨rfl, rfl,
   by rw [(valid_booking_created strictHost [] _ "b1" ashaBooking _ rfl rfl).1]; rfl⟩

/-- C9: when a body passes `validateBooking` and building or saving the booking fails,
the response is status 500 with `{ success: false, message: 'Server error while
creating booking' }` whatever the error was, it is not a 201, and the store is exactly
what it was. -/
theorem store_failure_gives_500 (host : Host) (store : Store) (err : JSError) (body : Props)
    (h : validateBooking host body = Outcome.next) :
    postBookings host store (StoreReply.failed err) body =
        { response :=
            { status := JSValue.number "500",
              body := JSValue.object [("success", JSValue.bool false),
                ("message", JSValue.string "Server error while creating booking")] },
          store := store, handlerRan := true } ∧
      (postBookings host store (StoreReply.failed err) body).response.status
        ≠ JSValue.number "201" := by
  have e : postBookings host store (StoreReply.failed err) body =
        { response :=
            { status := JSValue.number "500",
              body := JSValue.object [("success", JSValue.bool false),
                ("message", JSValue.string "Server error while creating booking")] },
          store := store, handlerRan := true } := by
    simp [postBookings, h, createBooking, Store.create]
  refine ⟨e, ?_⟩
  rw [e]
  simp

/-- The round-trip example with an unreachable store leaves the empty store empty. -/
theorem store_failure_gives_500_witness :
    validateBooking strictHost ashaBooking = Outcome.next ∧
      (postBookings strictHost [] (StoreReply.failed
          { status := JSValue.undefined, message := JSValue.string "connect ECONNREFUSED" })
          ashaBooking).store = [] :=
  ⟨rfl, by rw [(store_failure_gives_500 strictHost []
      { status := JSValue.undefined, message := JSValue.string "connect ECONNREFUSED" }
      ashaBooking rfl).1]⟩

/-- C10: the global error handler answers with the error's own status when it has one
(a truthy `status`) and 500 otherwise, and with `{ success: false, message }` where
`message` is the error's own message when it has one (a truthy `message`) and
'Internal Server Error' otherwise; in particular an error without `status` gets 500
and an error without `message` gets 'Internal Server Error'. -/
theorem global_error_handler_response (err : JSError) :
    (globalErrorHandler err).status
        = (if toBoolean err.status = true then err.status else JSValue.number "500") ∧
      (globalErrorHandler err).body
        = JSValue.object [("success", JSValue.bool false),
            ("message", if toBoolean err.message = true then err.message
              else JSValue.string "Internal Server Error")] ∧
      (globalErrorHandler { status := JSValue.undefined, message := err.message }).status
        = JSValue.number "500" ∧
      (globalErrorHandler { status := err.status, message := JSValue.undefined }).body
        = JSValue.object [("success", JSValue.bool false),
            ("message", JSValue.string "Internal Server Error")] ∧
      globalErrorHandler
          { status := JSValue.number "413", message := JSValue.string "request entity too large" }
        = { status := JSValue.number "413",
            body := JSValue.object [("success", JSValue.bool false),
              ("message", JSValue.string "request entity too large")] } :=
  ⟨rfl, rfl, rfl, rfl, rfl⟩

/-- C1, on the body `{ name: 'Asha', email: 'a@x.com', date: { toString: 1 }, time:
'10:00', temple: 'Shiva Temple' }`: the validator neither answers 400 nor calls
`next()`.  The presence and type checks pass, `Date.parse(date)` throws the
`TypeError` of `ToString` on an object whose `toString` is not callable, and the
request ends in the global error handler with status 500. -/
theorem validator_throws_on_object_date (host : Host) (store : Store) (reply : StoreReply) :
    allPresent (ashaBooking.set "date" (JSValue.object [("toString", JSValue.number "1")])) = true ∧
      textFieldsAreStrings
        (ashaBooking.set "date" (JSValue.object [("toString", JSValue.number "1")])) = true ∧
      validateBooking host
          (ashaBooking.set "date" (JSValue.object [("toString", JSValue.number "1")]))
        = Outcome.threw typeErrorToPrimitive ∧
      postBookings host store reply
          (ashaBooking.set "date" (JSValue.object [("toString", JSValue.number "1")]))
        = { response :=
              { status := JSValue.number "500",
                body := JSValue.object [("success", JSValue.bool false),
                  ("message", JSValue.string "Cannot convert object to primitive value")] },
            store := store, handlerRan := false } :=
  ⟨rfl, rfl, rfl, rfl⟩

/-- C7, on the body `{ name: 'Asha', email: 'a@x.com', date: '2025-06-01', time:
['10:00'], temple: 'Shiva Temple' }`: the validator calls `next()`, because the time
pattern is tested on the string form '10:00' of the array, and the value handed to
`new Booking` as `time` is the array, not a text value. -/
theorem array_time_passes_validation (host : Host) :
    validateBooking host (ashaBooking.set "time" (JSValue.array [JSValue.string "10:00"]))
        = Outcome.next ∧
      (bookingInput (ashaBooking.set "time" (JSValue.array [JSValue.string "10:00"]))).time
        = JSValue.array [JSValue.string "10:00"] ∧
      typeof (bookingInput
          (ashaBooking.set "time" (JSValue.array [JSValue.string "10:00"]))).time ≠ "string" := by
  refine ⟨?_, rfl, by decide⟩
  have hv := validateBooking_string_time host
    (ashaBooking.set "time" (JSValue.array [JSValue.string "10:00"])) "2025-06-01" "10:00"
    rfl rfl rfl (host.dateParse_isoDate "2025-06-01" rfl) rfl
  rw [hv]
  rfl

end DivineDestination
